import Mathlib

/-!
# Verification of the film-cli stream-resolution pipeline

Shallow embedding of the Go source (`main.go` and the current pipeline file)
into Lean 4, together with theorems settling the specification claims.

Modelling conventions:
* A Go `string` is modelled as `List Char` (`Str`).  Go strings are byte
  sequences; all strings handled by this program are treated at character
  granularity, with raw bytes produced by base64 decoding carried as
  `List Nat` and re-injected via `byteStr` (exact for the byte range, which
  covers every input in scope).
* Fallible Go functions returning `(T, error)` are modelled as
  `Except GoErr T` (or `Option` for the base64 library call), with one
  `GoErr` constructor per `fmt.Errorf` site, carrying the same data as the
  format arguments.
* Network I/O is modelled by an oracle `Net : Str → Str → Response` mapping
  (url, referer) to the HTTP response; a response carries the status code,
  the raw body text, and the body parsed as a DOM tree (HTML parsing by
  `goquery`/`x/net/html` is an external library and is modelled as given —
  it does not fail on string input).
* The side-effecting script-persistence block inside `decodeStreamURL`
  (fetching `/sV05kUlNvOdOxvtC/` scripts and writing them to disk) only
  logs and never influences the function's return value, so it is omitted
  from the value-level model.
-/

/-- Go strings, modelled at character granularity. -/
abbrev Str := List Char

/-- Convenience injection of Lean string literals. -/
def str (s : String) : Str := s.toList

/-- Go `string(bytes)`: each byte becomes one character (exact on the byte
range; every byte value is a valid scalar below the surrogate range). -/
def byteStr (bs : List Nat) : Str := bs.map Char.ofNat

/-- The apostrophe character (U+0027). -/
def apos : Char := Char.ofNat 39

/-- Characters trimmed by Go `strings.TrimSpace` (`unicode.IsSpace` for the
Latin-1 range). -/
def isSpaceGo (c : Char) : Bool :=
  c = ' ' || c = '\t' || c = '\n' || c = Char.ofNat 11 || c = Char.ofNat 12 ||
  c = '\r' || c = Char.ofNat 0x85 || c = Char.ofNat 0xA0

/-- Go `strings.TrimSpace`: drop whitespace from both ends. -/
def trimSpace (s : Str) : Str :=
  ((s.dropWhile isSpaceGo).reverse.dropWhile isSpaceGo).reverse

/-- Go `strings.Trim(s, cutset)` specialised to a one-character cutset:
drop that character from both ends. -/
def trimChar (c : Char) (s : Str) : Str :=
  ((s.dropWhile (· = c)).reverse.dropWhile (· = c)).reverse

/-- Go `strings.Split(s, sep)` for a one-character separator. -/
def splitOnChar (sep : Char) : Str → List Str
  | [] => [[]]
  | c :: rest =>
    if c = sep then
      [] :: splitOnChar sep rest
    else
      match splitOnChar sep rest with
      | [] => [[c]]
      | p :: ps => (c :: p) :: ps

/-! ## Base64 (Go `encoding/base64`, `StdEncoding`) -/

/-- The standard base64 alphabet used by Go `base64.StdEncoding`. -/
def b64alphabet : Str :=
  str "ABCDEFGHIJKLMNOPQRSTUVWXYZabcdefghijklmnopqrstuvwxyz0123456789+/"

/-- Character for a 6-bit group (Go `Encoding.Encode` table lookup). -/
def sextetChar (n : Nat) : Char := b64alphabet.getD n 'A'

/-- Go `base64.StdEncoding.EncodeToString`: 3 input bytes become 4 alphabet
characters; a 2-byte remainder becomes 3 characters plus `=`; a 1-byte
remainder becomes 2 characters plus `==`. -/
def b64encode : List Nat → Str
  | b0 :: b1 :: b2 :: rest =>
    sextetChar (b0 / 4) :: sextetChar (b0 % 4 * 16 + b1 / 16) ::
    sextetChar (b1 % 16 * 4 + b2 / 64) :: sextetChar (b2 % 64) :: b64encode rest
  | [b0, b1] =>
    [sextetChar (b0 / 4), sextetChar (b0 % 4 * 16 + b1 / 16),
     sextetChar (b1 % 16 * 4), '=']
  | [b0] =>
    [sextetChar (b0 / 4), sextetChar (b0 % 4 * 16), '=', '=']
  | [] => []

/-- Inverse alphabet lookup (Go's `decodeMap`); `none` for characters outside
the alphabet (including `=`). -/
def decodeSextet (c : Char) : Option Nat :=
  b64alphabet.indexOf? c

/-- Go `base64.StdEncoding` decoding of complete 4-character quanta:
`=` may appear only as final padding (one or two characters) in the last
quantum; trailing input after padding, a quantum shorter than 4 characters,
or a character outside the alphabet is an error (`none`).  Go's non-strict
decoder does not require the unused trailing bits to be zero. -/
def b64decodeQuanta : Str → Option (List Nat)
  | [] => some []
  | a :: b :: c :: d :: rest => do
    let x ← decodeSextet a
    let y ← decodeSextet b
    if c = '=' then
      if d = '=' ∧ rest = [] then pure [x * 4 + y / 16] else none
    else do
      let z ← decodeSextet c
      if d = '=' then
        if rest = [] then pure [x * 4 + y / 16, y % 16 * 16 + z / 4] else none
      else do
        let w ← decodeSextet d
        let bs ← b64decodeQuanta rest
        pure ((x * 4 + y / 16) :: (y % 16 * 16 + z / 4) ::
              (z % 4 * 64 + w) :: bs)
  | _ => none

/-- Go `base64.StdEncoding.DecodeString`: newline characters (`\r`, `\n`)
are ignored, then the input is decoded in 4-character quanta. -/
def b64decodeGo (s : Str) : Option (List Nat) :=
  b64decodeQuanta (s.filter (fun c => !(c = '\n' || c = '\r')))

/-! ## `Deobfuscate` (pipeline file, lines 296–327) -/

/-- Characters at even indices 0, 2, 4, … of a list (the Go loop
`for i := 0; i < n; i += 2`). -/
def everySecond : Str → Str
  | [] => []
  | [x] => [x]
  | x :: _ :: rest => x :: everySecond rest

/-- Go `Deobfuscate`: reverse the rune sequence, keep the characters at even
indices of the reversed sequence, then base64-decode with the standard
alphabet.  `none` models the wrapped base64 error return. -/
def Deobfuscate (obfCode : Str) : Option (List Nat) :=
  b64decodeGo (everySecond obfCode.reverse)

/-- Forward obfuscation step used by the round-trip property: interleave the
encoded text with one filler character after each character (so the payload
sits at even indices and the filler at odd indices). -/
def interleave : Str → Str → Str
  | [], _ => []
  | x :: xs, [] => x :: xs
  | x :: xs, y :: ys => x :: y :: interleave xs ys

/-! ## Error model

One constructor per `fmt.Errorf` site of the pipeline file; each carries the
same data as the format arguments.  Network-level failures (`client.Do`
errors), body-read errors and `goquery` parse errors are not modelled: the
network oracle always yields a response, and `goquery.NewDocumentFromReader`
does not fail on in-memory strings. -/

inductive GoErr where
  /-- Error "cannot build movie URL: imdbId is empty". -/
  | emptyMovieID : GoErr
  /-- Error "cannot build tv URL: imdbId is empty". -/
  | emptyTVID : GoErr
  /-- Error "cannot build tv URL for imdbId %q: season and episode must be set". -/
  | seasonEpisodeUnset (imdbID : Str) : GoErr
  /-- Error "unsupported media type %q for imdbId %q". -/
  | unsupportedMediaType (typ imdbID : Str) : GoErr
  /-- Error "unexpected status code %d for page %q" from fetchContent. -/
  | unexpectedStatus (url : Str) (status : Nat) : GoErr
  /-- Error "no iframe src found for RCP URL". -/
  | noIframeSrc : GoErr
  /-- Error "no ProRCP URL found in RCP page". -/
  | noProRCPURL : GoErr
  /-- Error "no hidden div found". -/
  | noHiddenDiv : GoErr
  /-- Error "deobfuscating content" wrapping the base64 error. -/
  | deobfuscateFailed : GoErr
  /-- Error "failed to extract necessary components for decoding". -/
  | extractComponentsFailed : GoErr
  /-- Error "unexpected status %d for master playlist %q" from ResolveStreams. -/
  | masterUnexpectedStatus (status : Nat) (url : Str) : GoErr
  /-- Error "no stream variants found in master playlist %q". -/
  | noVariantsFound (url : Str) : GoErr
deriving DecidableEq

/-! ## HTML documents

`goquery` operates on the DOM produced by `x/net/html`; documents are
modelled directly as trees of elements (tag, attribute list, children) and
text nodes.  Selector matches are collected in document order (pre-order),
matching `goquery.Find`; `Selection.Text` concatenates all descendant text
nodes; `Selection.Attr` reads the first attribute with the given key of the
first matched element. -/

inductive HTMLNode where
  | text (s : Str) : HTMLNode
  | elem (tag : Str) (attrs : List (Str × Str)) (children : List HTMLNode) : HTMLNode

mutual

/-- All elements satisfying `pred`, in document order (pre-order). -/
def collectMatching (pred : Str → List (Str × Str) → Bool) : HTMLNode → List HTMLNode
  | .text _ => []
  | .elem tag attrs children =>
    (if pred tag attrs then [HTMLNode.elem tag attrs children] else []) ++
      collectMatchingList pred children

def collectMatchingList (pred : Str → List (Str × Str) → Bool) :
    List HTMLNode → List HTMLNode
  | [] => []
  | n :: ns => collectMatching pred n ++ collectMatchingList pred ns

end

mutual

/-- Model of `Selection.Text`: concatenation of all descendant text nodes. -/
def nodeText : HTMLNode → Str
  | .text s => s
  | .elem _ _ children => nodeTextList children

def nodeTextList : List HTMLNode → Str
  | [] => []
  | n :: ns => nodeText n ++ nodeTextList ns

end

/-- Selector `iframe#player_iframe`. -/
def isPlayerIframe (tag : Str) (attrs : List (Str × Str)) : Bool :=
  tag == str "iframe" && List.lookup (str "id") attrs == some (str "player_iframe")

/-- Selector `div[style='display:none;']` (exact attribute match). -/
def isHiddenDiv (tag : Str) (attrs : List (Str × Str)) : Bool :=
  tag == str "div" && List.lookup (str "style") attrs == some (str "display:none;")

/-- Function `extractRCPURL` (pipeline file, lines 206–219): the `src` attribute of
the first `iframe#player_iframe`; error if the selection is empty, the
attribute is missing, or its value is empty. -/
def extractRCPURL (doc : HTMLNode) : Except GoErr Str :=
  match collectMatching isPlayerIframe doc with
  | [] => .error .noIframeSrc
  | HTMLNode.elem _ attrs _ :: _ =>
    match List.lookup (str "src") attrs with
    | none => .error .noIframeSrc
    | some src => if src = [] then .error .noIframeSrc else .ok src
  | HTMLNode.text _ :: _ => .error .noIframeSrc

/-! ## `extractProRCPURL` (pipeline file, lines 221–230)

The Go regular expression is the literal `src: '(/prorcp/[^']+)` — the
characters `src:`, one space, one apostrophe, then the capture group:
`/prorcp/` followed by at least one non-apostrophe character (greedy, no
closing quote in the pattern).  `FindStringSubmatch` returns the leftmost
match, which the scan below reproduces by trying every start position from
the left. -/

/-- Attempt the pattern at the head of `s`; on success return the capture
group (`/prorcp/` plus the maximal nonempty run of non-apostrophe
characters). -/
def proRCPMatchAt (s : Str) : Option Str :=
  if (str "src: '/prorcp/").isPrefixOf s then
    let cap := (s.drop 14).takeWhile (fun c => c ≠ apos)
    if cap = [] then none else some (str "/prorcp/" ++ cap)
  else none

/-- Leftmost match of the ProRCP pattern. -/
def proRCPScan : Str → Option Str
  | [] => none
  | c :: rest =>
    match proRCPMatchAt (c :: rest) with
    | some cap => some cap
    | none => proRCPScan rest

def extractProRCPURL (rcpHTML : Str) : Except GoErr Str :=
  match proRCPScan rcpHTML with
  | some m => .ok m
  | none => .error .noProRCPURL

/-- Function `decodeStreamURL` (pipeline file, lines 232–294).  The script-persistence
block (lines 240–268) fetches and writes `scripts/prorcp.js`, logging and
ignoring every failure; it never affects the returned value and is omitted.
The hidden token is the trimmed text of the first `div[style='display:none;']`;
a missing div is an error, an empty trimmed token is an error, otherwise the
token is deobfuscated and the resulting bytes are returned as the URL
string. -/
def decodeStreamURL (doc : HTMLNode) : Except GoErr Str :=
  match collectMatching isHiddenDiv doc with
  | [] => .error .noHiddenDiv
  | d :: _ =>
    let divContent := trimSpace (nodeText d)
    if divContent ≠ [] then
      match Deobfuscate divContent with
      | some bs => .ok (byteStr bs)
      | none => .error .deobfuscateFailed
    else .error .extractComponentsFailed

/-! ## `buildEmbedURL` (pipeline file, lines 154–177) -/

/-- Structure `ResolveOptions`; the Go field `Type` (a `MediaType`, i.e. a string) is
named `Typ` here because `Type` is reserved in Lean. -/
structure ResolveOptions where
  IMDBID : Str
  Typ : Str
  Season : Int
  Episode : Int

/-- Go constant `Movie MediaType = "movie"`. -/
def Movie : Str := str "movie"

/-- Go constant `TV MediaType = "tv"`. -/
def TV : Str := str "tv"

/-- Go `fmt.Sprintf("%d", i)` for an `int`. -/
def intToStr (i : Int) : Str := (Int.repr i).toList

def buildEmbedURL (o : ResolveOptions) : Except GoErr Str :=
  if o.Typ = Movie then
    if o.IMDBID = [] then .error .emptyMovieID
    else .ok (str "https://vidsrc-embed.ru/embed/movie?imdb=" ++ o.IMDBID)
  else if o.Typ = TV then
    if o.IMDBID = [] then .error .emptyTVID
    else if o.Season = 0 ∨ o.Episode = 0 then .error (.seasonEpisodeUnset o.IMDBID)
    else .ok (str "https://vidsrc-embed.ru/embed/tv?imdb=" ++ o.IMDBID ++
              str "&season=" ++ intToStr o.Season ++
              str "&episode=" ++ intToStr o.Episode)
  else .error (.unsupportedMediaType o.Typ o.IMDBID)

/-! ## `net/url` subset: `Parse`, `ResolveReference`, `String`

`resolveRelativeURL` (pipeline file, lines 343–353) parses both strings and
resolves the reference against the base, falling back to the raw reference
string if either parse fails.  The model below transcribes the relevant
parts of Go `net/url`: scheme detection, fragment and query splitting,
authority extraction, `resolvePath` (merge plus dot-segment removal) and
`URL.String`.  Percent-escaping and userinfo are not modelled (no input in
scope contains `%` escapes or `@`), and host-syntax validation is not
performed (invalid-host parse errors cannot be hit by the URLs in scope). -/

structure GoURL where
  scheme : Str
  /-- Go field `Opaque`. -/
  opq : Str
  omitHost : Bool
  host : Str
  path : Str
  forceQuery : Bool
  rawQuery : Str
  fragment : Str
deriving DecidableEq

/-- Go `stringContainsCTLByte`. -/
def containsCTL (s : Str) : Bool :=
  s.any (fun c => c.toNat < 0x20 || c.toNat = 0x7f)

def isAlphaGo (c : Char) : Bool :=
  ('a' ≤ c && c ≤ 'z') || ('A' ≤ c && c ≤ 'Z')

def isDigitGo (c : Char) : Bool := '0' ≤ c && c ≤ '9'

/-- ASCII lower-casing (Go `strings.ToLower`, which the parser applies to
the scheme; schemes in scope are ASCII). -/
def toLowerGo (s : Str) : Str :=
  s.map (fun c => if 'A' ≤ c && c ≤ 'Z' then Char.ofNat (c.toNat + 32) else c)

/-- Go `getScheme`, with the scanned prefix carried in `acc` (reversed).
`none` is the "missing protocol scheme" error; otherwise the result is
`(scheme, rest)`, with an empty scheme when the input has none. -/
def getSchemeCore : Str → Str → Option (Str × Str)
  | acc, [] => some ([], acc.reverse)
  | acc, c :: rest =>
    if isAlphaGo c then getSchemeCore (c :: acc) rest
    else if isDigitGo c || c = '+' || c = '-' || c = '.' then
      if acc = [] then some ([], c :: rest)
      else getSchemeCore (c :: acc) rest
    else if c = ':' then
      if acc = [] then none else some (acc.reverse, rest)
    else some ([], acc.reverse ++ c :: rest)

/-- Split at the first occurrence of `sep`; `none` when absent. -/
def splitAtFirst (sep : Char) : Str → Option (Str × Str)
  | [] => none
  | c :: rest =>
    if c = sep then some ([], rest)
    else (splitAtFirst sep rest).map (fun p => (c :: p.1, p.2))

/-- Go `url.parse` with `viaRequest = false`, after the fragment has been
split off. -/
def urlParseNoFrag (rawURL : Str) : Option GoURL :=
  if containsCTL rawURL then none
  else
    match getSchemeCore [] rawURL with
    | none => none
    | some (scheme0, rest0) =>
      let scheme := toLowerGo scheme0
      let qsplit :=
        if rest0.getLast? = some '?' ∧ ¬ rest0.dropLast.contains '?' then
          (rest0.dropLast, true, ([] : Str))
        else
          match splitAtFirst '?' rest0 with
          | some p => (p.1, false, p.2)
          | none => (rest0, false, [])
      let rest := qsplit.1
      let forceQuery := qsplit.2.1
      let rawQuery := qsplit.2.2
      if ¬ (str "/").isPrefixOf rest then
        if scheme ≠ [] then
          some ⟨scheme, rest, false, [], [], forceQuery, rawQuery, []⟩
        else
          let segment :=
            match splitAtFirst '/' rest with
            | some p => p.1
            | none => rest
          if segment.contains ':' then none
          else some ⟨scheme, [], false, [], rest, forceQuery, rawQuery, []⟩
      else if (str "//").isPrefixOf rest ∧
          (scheme ≠ [] ∨ ¬ (str "///").isPrefixOf rest) then
        let afterSlashes := rest.drop 2
        match splitAtFirst '/' afterSlashes with
        | some p => some ⟨scheme, [], false, p.1, '/' :: p.2, forceQuery, rawQuery, []⟩
        | none => some ⟨scheme, [], false, afterSlashes, [], forceQuery, rawQuery, []⟩
      else if scheme ≠ [] then
        some ⟨scheme, [], true, [], rest, forceQuery, rawQuery, []⟩
      else
        some ⟨scheme, [], false, [], rest, forceQuery, rawQuery, []⟩

/-- Go `url.Parse`: split the fragment at the first `#`, parse the rest. -/
def urlParse (rawURL : Str) : Option GoURL :=
  match splitAtFirst '#' rawURL with
  | some p =>
    match urlParseNoFrag p.1 with
    | none => none
    | some u => some { u with fragment := p.2 }
  | none => urlParseNoFrag rawURL

/-- Index of the last occurrence of `c`. -/
def lastIdxOf (c : Char) : Str → Option Nat
  | [] => none
  | x :: rest =>
    match lastIdxOf c rest with
    | some i => some (i + 1)
    | none => if x = c then some 0 else none

/-- The segment loop of Go `resolvePath`: `dst` always carries the leading
slash; `first` tracks whether a separator must be written before the next
ordinary segment. -/
def resolveSegs : List Str → Str → Bool → Str
  | [], dst, _ => dst
  | seg :: rest, dst, first =>
    if seg = str "." then resolveSegs rest dst false
    else if seg = str ".." then
      let s := dst.drop 1
      match lastIdxOf '/' s with
      | none => resolveSegs rest (str "/") true
      | some i => resolveSegs rest ('/' :: s.take i) first
    else resolveSegs rest (dst ++ (if first then [] else str "/") ++ seg) false

/-- Go `resolvePath(base, ref)`: merge the reference into the base path and
remove dot segments. -/
def resolvePath (base ref : Str) : Str :=
  let full :=
    if ref = [] then base
    else if ref.head? ≠ some '/' then
      (match lastIdxOf '/' base with
       | none => []
       | some i => base.take (i + 1)) ++ ref
    else ref
  if full = [] then []
  else
    let segs := splitOnChar '/' full
    let dst := resolveSegs segs (str "/") true
    let dst :=
      if segs.getLast? = some (str ".") ∨ segs.getLast? = some (str "..") then
        dst ++ str "/"
      else dst
    match dst with
    | a :: b :: t => if b = '/' then b :: t else a :: b :: t
    | short => short

/-- Go `URL.ResolveReference` (userinfo not modelled). -/
def resolveReference (u ref : GoURL) : GoURL :=
  let scheme := if ref.scheme = [] then u.scheme else ref.scheme
  if ref.scheme ≠ [] ∨ ref.host ≠ [] then
    { ref with scheme := scheme, path := resolvePath ref.path [] }
  else if ref.opq ≠ [] then
    { ref with scheme := scheme, host := [], path := [] }
  else
    let keepBaseQuery := ref.path = [] ∧ ¬ ref.forceQuery ∧ ref.rawQuery = []
    { ref with
      scheme := scheme
      host := u.host
      path := resolvePath u.path ref.path
      rawQuery := if keepBaseQuery then u.rawQuery else ref.rawQuery
      fragment :=
        if keepBaseQuery ∧ ref.fragment = [] then u.fragment else ref.fragment }

/-- Go `URL.String` (escaping and userinfo not modelled). -/
def urlString (u : GoURL) : Str :=
  (if u.scheme ≠ [] then u.scheme ++ str ":" else []) ++
  (if u.opq ≠ [] then u.opq
   else
     (if u.scheme ≠ [] ∨ u.host ≠ [] then
        (if u.omitHost ∧ u.host = [] then []
         else (if u.host ≠ [] ∨ u.path ≠ [] then str "//" else []) ++ u.host)
      else []) ++
     (if u.path ≠ [] ∧ u.path.head? ≠ some '/' ∧ u.host ≠ [] then str "/" else []) ++
     u.path) ++
  (if u.forceQuery ∨ u.rawQuery ≠ [] then str "?" ++ u.rawQuery else []) ++
  (if u.fragment ≠ [] then str "#" ++ u.fragment else [])

/-- Function `resolveRelativeURL` (pipeline file, lines 343–353). -/
def resolveRelativeURL (baseStr refStr : Str) : Str :=
  match urlParse baseStr with
  | none => refStr
  | some base =>
    match urlParse refStr with
    | none => refStr
    | some ref => urlString (resolveReference base ref)

/-! ## Playlist parsing (`ResolveStreams` loop, pipeline file lines 121–152) -/

structure StreamVariant where
  Resolution : Str
  Bandwidth : Str
  URL : Str
deriving DecidableEq

/-- Function `parseAttributes` (lines 329–341) followed by the Go map lookup
`attrs[key]`: split the line on commas, keep parts containing `=`, trim the
part, split at the first `=`, strip surrounding double quotes from the
value.  Assigning into the map makes the last occurrence of a key win, and
a missing key yields the empty string. -/
def attrOf (line key : Str) : Str :=
  List.foldl
    (fun acc part =>
      if part.contains '=' then
        let t := trimSpace part
        let k := t.takeWhile (fun c => c ≠ '=')
        if k = key then trimChar '"' (t.drop (k.length + 1)) else acc
      else acc)
    [] (splitOnChar ',' line)

/-- One parsed variant: attributes from the (trimmed) tag line, URL from the
(trimmed) following line resolved against the master URL. -/
def mkVariant (masterURL line urlLine : Str) : StreamVariant :=
  ⟨attrOf line (str "RESOLUTION"), attrOf line (str "BANDWIDTH"),
   resolveRelativeURL masterURL urlLine⟩

/-- The variant-collection loop of `ResolveStreams`: for each line whose
trimmed text starts with `#EXT-X-STREAM-INF`, look only at the immediately
following line (if any); the variant is kept when that line, trimmed, is
nonempty and does not start with `#`. -/
def parseLoop (masterURL : Str) : List Str → List StreamVariant
  | [] => []
  | l :: rest =>
    (if (str "#EXT-X-STREAM-INF").isPrefixOf (trimSpace l) then
      match rest with
      | next :: _ =>
        let urlLine := trimSpace next
        if urlLine ≠ [] ∧ ¬ (str "#").isPrefixOf urlLine then
          [mkVariant masterURL (trimSpace l) urlLine]
        else []
      | [] => []
    else []) ++ parseLoop masterURL rest

/-! ## Pipeline orchestration over a network oracle -/

/-- An HTTP response: status code, raw body, and the body parsed as a DOM
(the external HTML parser is modelled as given). -/
structure Response where
  status : Nat
  raw : Str
  dom : HTMLNode

/-- The network, mapping (url, referer) to the response. -/
abbrev Net := Str → Str → Response

/-- Function `fetchContent` (pipeline file, lines 179–204): perform the GET (with the
`Referer` header when nonempty — part of the oracle argument) and reject any
status other than exactly `http.StatusOK` (200). -/
def fetchContent (net : Net) (url referer : Str) : Except GoErr (Str × HTMLNode) :=
  let r := net url referer
  if r.status ≠ 200 then .error (.unexpectedStatus url r.status)
  else .ok (r.raw, r.dom)

/-- Function `ResolveVariants` (pipeline file, lines 47–96): the six-stage sequence.
Each stage returns on the first error; no stage is retried. -/
def ResolveVariants (net : Net) (o : ResolveOptions) : Except GoErr Str := do
  let embedURL ← buildEmbedURL o
  let embedPage ← fetchContent net embedURL []
  let rcpURL ← extractRCPURL embedPage.2
  let rcpPage ← fetchContent net (str "https:" ++ rcpURL) []
  let proRCPURL ← extractProRCPURL rcpPage.1
  let proPage ← fetchContent net (str "https://cloudnestra.com" ++ proRCPURL)
      (str "https://cloudnestra.com")
  let hlsURL ← decodeStreamURL proPage.2
  pure hlsURL

/-- Function `ResolveStreams` (pipeline file, lines 99–152): fetch the master
playlist (no referer), require status 200, split on newlines, collect
variants, and fail when none were found. -/
def ResolveStreams (net : Net) (o : ResolveOptions) :
    Except GoErr (List StreamVariant) := do
  let masterURL ← ResolveVariants net o
  let r := net masterURL []
  if r.status ≠ 200 then .error (.masterUnexpectedStatus r.status masterURL)
  else
    let variants := parseLoop masterURL (splitOnChar '\n' r.raw)
    if variants = [] then .error (.noVariantsFound masterURL)
    else pure variants

/-! ## Definitions taken from the wording of the spec (for refutations) -/

/-- Modelled from the spec: "a syntactically valid absolute URL" — an
absolute URL must begin with a URI scheme (a letter followed by letters,
digits, `+`, `-` or `.`) and a colon. -/
def specIsAbsoluteURL (s : Str) : Bool :=
  let pre := s.takeWhile (fun c => c ≠ ':')
  pre ≠ [] && pre.length < s.length && isAlphaGo (pre.headD ' ') &&
    pre.all (fun c => isAlphaGo c || isDigitGo c || c = '+' || c = '-' || c = '.')

/-- Whitespace class of the claimed pattern (`\s` in Go regexp syntax). -/
def isRegexSpace (c : Char) : Bool :=
  c = '\t' || c = '\n' || c = Char.ofNat 11 || c = Char.ofNat 12 ||
  c = '\r' || c = ' '

/-- Modelled from the spec: one attempt of the claimed pattern
`src:\s*.(/prorcp/[^.]+).` (the dots standing for the quote character) at
the head of `s` — `src:`, any run of whitespace, a quote, then the capture
`/prorcp/` plus a nonempty run of non-quote characters, then a closing
quote. -/
def specProRCPMatchAt (s : Str) : Option Str :=
  if (str "src:").isPrefixOf s then
    let t := (s.drop 4).dropWhile isRegexSpace
    if t.head? = some apos then
      let t2 := t.drop 1
      if (str "/prorcp/").isPrefixOf t2 then
        let cap := (t2.drop 8).takeWhile (fun c => c ≠ apos)
        if cap ≠ [] ∧ ((t2.drop 8).drop cap.length).head? = some apos then
          some (str "/prorcp/" ++ cap)
        else none
      else none
    else none
  else none

/-- Modelled from the spec: leftmost match of the claimed pattern. -/
def specProRCPScan : Str → Option Str
  | [] => none
  | c :: rest =>
    match specProRCPMatchAt (c :: rest) with
    | some cap => some cap
    | none => specProRCPScan rest

/-! ## Concrete fixtures used by witnesses and counterexamples -/

def net200 : Net := fun _ _ => ⟨200, str "body", .text []⟩

def net204 : Net := fun _ _ => ⟨204, [], .text []⟩

def noDivDoc : HTMLNode :=
  .elem (str "html") []
    [.elem (str "div") [(str "style", str "display: none;")] [.text (str "x")]]

def helloToken : Str :=
  (interleave (b64encode ((str "hello").map Char.toNat)) (List.replicate 8 'z')).reverse

def helloDiv : HTMLNode :=
  .elem (str "div") [(str "style", str "display:none;")] [.text helloToken]

def helloDoc : HTMLNode := .elem (str "html") [] [helloDiv]

def notaurlToken : Str :=
  (interleave (b64encode ((str "notaurl").map Char.toNat)) (List.replicate 12 'x')).reverse

def notaurlDiv : HTMLNode :=
  .elem (str "div") [(str "style", str "display:none;")] [.text notaurlToken]

def notaurlDoc : HTMLNode := .elem (str "html") [] [notaurlDiv]

def demoBytes : List Nat := (str "https://m.ex/pl.m3u8").map Char.toNat

def demoToken : Str :=
  (interleave (b64encode demoBytes) (List.replicate 28 'k')).reverse

def demoEmbedDoc : HTMLNode :=
  .elem (str "html") []
    [.elem (str "iframe")
      [(str "id", str "player_iframe"), (str "src", str "//cloudnestra.com/rcp/abc")] []]

def demoRcpRaw : Str := str "video player src: '/prorcp/xyz' autoplay"

def demoProDoc : HTMLNode :=
  .elem (str "html") []
    [.elem (str "div") [(str "style", str "display:none;")] [.text demoToken]]

def demoPlaylist : Str :=
  str "#EXTM3U\n#EXT-X-STREAM-INF:BANDWIDTH=1280000,RESOLUTION=720x480\nv/a.m3u8"

def demoPlaylist2 : Str := str "#EXTM3U\njust text"

def mkNetDemo (playlist : Str) : Net := fun url _ =>
  if url = str "https://vidsrc-embed.ru/embed/movie?imdb=tt1" then
    ⟨200, [], demoEmbedDoc⟩
  else if url = str "https://cloudnestra.com/rcp/abc" then
    ⟨200, demoRcpRaw, .text []⟩
  else if url = str "https://cloudnestra.com/prorcp/xyz" then
    ⟨200, [], demoProDoc⟩
  else if url = str "https://m.ex/pl.m3u8" then
    ⟨200, playlist, .text []⟩
  else ⟨404, [], .text []⟩

def netDemo : Net := mkNetDemo demoPlaylist

def netDemo2 : Net := mkNetDemo demoPlaylist2

def oDemo : ResolveOptions := ⟨str "tt1", Movie, 0, 0⟩

/-! # Theorems -/

/-! ## Base64 and `Deobfuscate` lemmas -/

theorem decodeSextet_sextetChar : ∀ n, n < 64 → decodeSextet (sextetChar n) = some n := by decide

theorem sextetChar_ne_pad : ∀ n, n < 64 → sextetChar n ≠ '=' := by decide

theorem sextetChar_mem : ∀ n, sextetChar n ∈ b64alphabet := by
  intro n
  unfold sextetChar
  by_cases h : n < b64alphabet.length
  · rw [List.getD_eq_getElem _ _ h]
    exact List.getElem_mem _
  · rw [List.getD_eq_default _ _ (by omega)]
    decide

theorem b64_quanta_encode : ∀ p : List Nat, (∀ b ∈ p, b < 256) →
    b64decodeQuanta (b64encode p) = some p
  | [], _ => rfl
  | [b0], h => by
    have hb0 : b0 < 256 := h b0 (by simp)
    have e0 := decodeSextet_sextetChar (b0 / 4) (by omega)
    have e1 := decodeSextet_sextetChar (b0 % 4 * 16) (by omega)
    simp only [b64encode, b64decodeQuanta, e0, e1, Option.bind_eq_bind', Option.some_bind,
      Option.pure_def, and_self, if_true, eq_self_iff_true, List.nil_eq, if_pos]
    have hv : b0 / 4 * 4 + b0 % 4 * 16 / 16 = b0 := by omega
    rw [hv]
  | [b0, b1], h => by
    have hb0 : b0 < 256 := h b0 (by simp)
    have hb1 : b1 < 256 := h b1 (by simp)
    have e0 := decodeSextet_sextetChar (b0 / 4) (by omega)
    have e1 := decodeSextet_sextetChar (b0 % 4 * 16 + b1 / 16) (by omega)
    have e2 := decodeSextet_sextetChar (b1 % 16 * 4) (by omega)
    simp only [b64encode, b64decodeQuanta, e0, e1, e2, Option.bind_eq_bind', Option.some_bind,
      Option.pure_def, if_neg (sextetChar_ne_pad (b1 % 16 * 4) (by omega)),
      eq_self_iff_true, if_true, and_self, if_pos]
    have hv0 : b0 / 4 * 4 + (b0 % 4 * 16 + b1 / 16) / 16 = b0 := by omega
    have hv1 : (b0 % 4 * 16 + b1 / 16) % 16 * 16 + b1 % 16 * 4 / 4 = b1 := by omega
    rw [hv0, hv1]
  | b0 :: b1 :: b2 :: rest, h => by
    have hb0 : b0 < 256 := h b0 (by simp)
    have hb1 : b1 < 256 := h b1 (by simp)
    have hb2 : b2 < 256 := h b2 (by simp)
    have ih := b64_quanta_encode rest (fun b hb => h b (by simp [hb]))
    have e0 := decodeSextet_sextetChar (b0 / 4) (by omega)
    have e1 := decodeSextet_sextetChar (b0 % 4 * 16 + b1 / 16) (by omega)
    have e2 := decodeSextet_sextetChar (b1 % 16 * 4 + b2 / 64) (by omega)
    have e3 := decodeSextet_sextetChar (b2 % 64) (by omega)
    simp only [b64encode, b64decodeQuanta, e0, e1, e2, e3, ih, Option.bind_eq_bind',
      Option.some_bind, Option.pure_def,
      if_neg (sextetChar_ne_pad (b1 % 16 * 4 + b2 / 64) (by omega)),
      if_neg (sextetChar_ne_pad (b2 % 64) (by omega))]
    have hv0 : b0 / 4 * 4 + (b0 % 4 * 16 + b1 / 16) / 16 = b0 := by omega
    have hv1 : (b0 % 4 * 16 + b1 / 16) % 16 * 16 + (b1 % 16 * 4 + b2 / 64) / 4 = b1 := by omega
    have hv2 : (b1 % 16 * 4 + b2 / 64) % 4 * 64 + b2 % 64 = b2 := by omega
    rw [hv0, hv1, hv2]

theorem mem_b64encode : ∀ p c, c ∈ b64encode p → c ∈ b64alphabet ∨ c = '='
  | b0 :: b1 :: b2 :: rest, c, h => by
    simp only [b64encode, List.mem_cons] at h
    rcases h with h | h | h | h | h
    · exact Or.inl (h ▸ sextetChar_mem _)
    · exact Or.inl (h ▸ sextetChar_mem _)
    · exact Or.inl (h ▸ sextetChar_mem _)
    · exact Or.inl (h ▸ sextetChar_mem _)
    · exact mem_b64encode rest c h
  | [b0, b1], c, h => by
    simp only [b64encode, List.mem_cons, List.not_mem_nil, or_false] at h
    rcases h with h | h | h | h
    · exact Or.inl (h ▸ sextetChar_mem _)
    · exact Or.inl (h ▸ sextetChar_mem _)
    · exact Or.inl (h ▸ sextetChar_mem _)
    · exact Or.inr h
  | [b0], c, h => by
    simp only [b64encode, List.mem_cons, List.not_mem_nil, or_false] at h
    rcases h with h | h | h | h
    · exact Or.inl (h ▸ sextetChar_mem _)
    · exact Or.inl (h ▸ sextetChar_mem _)
    · exact Or.inr h
    · exact Or.inr h
  | [], c, h => by simp [b64encode] at h

theorem alpha_not_nlcr : ∀ c ∈ b64alphabet, (!(c = '\n' || c = '\r')) = true := by decide

theorem filter_b64encode (p : List Nat) :
    (b64encode p).filter (fun c => !(c = '\n' || c = '\r')) = b64encode p := by
  rw [List.filter_eq_self]
  intro c hc
  rcases mem_b64encode p c hc with h | h
  · exact alpha_not_nlcr c h
  · subst h
    decide

theorem everySecond_interleave : ∀ xs ys : Str, ys.length = xs.length →
    everySecond (interleave xs ys) = xs
  | [], ys, _ => by simp [interleave, everySecond]
  | x :: xs, [], h => by simp at h
  | x :: xs, y :: ys, h => by
    simp only [List.length_cons, Nat.add_right_cancel_iff] at h
    simp only [interleave, everySecond]
    rw [everySecond_interleave xs ys h]

/-- Claim C1: Decode Variant A is a left inverse of the forward obfuscation.
For every plaintext byte sequence `p` and every choice of filler characters
(one filler at every odd position, i.e. a filler list as long as the base64
text), applying `Deobfuscate` — reverse, keep even indices of the reversed
sequence, base64-decode with the standard alphabet and padding — to
`reverse (interleave (base64 p) filler)` returns exactly `p` with no
error. -/
theorem C1_decode_variantA_left_inverse (p : List Nat) (filler : Str)
    (hp : ∀ b ∈ p, b < 256) (hf : filler.length = (b64encode p).length) :
    Deobfuscate ((interleave (b64encode p) filler).reverse) = some p := by
  unfold Deobfuscate b64decodeGo
  rw [List.reverse_reverse, everySecond_interleave _ _ hf, filter_b64encode,
    b64_quanta_encode p hp]

theorem C1_witness :
    (∀ b ∈ (str "https://example.com/x.m3u8").map Char.toNat, b < 256) ∧
    (List.replicate 36 'Q').length =
      (b64encode ((str "https://example.com/x.m3u8").map Char.toNat)).length ∧
    Deobfuscate ((interleave (b64encode ((str "https://example.com/x.m3u8").map Char.toNat))
        (List.replicate 36 'Q')).reverse) =
      some ((str "https://example.com/x.m3u8").map Char.toNat) :=
  ⟨by decide, by decide,
    C1_decode_variantA_left_inverse _ _ (by decide) (by decide)⟩

theorem everySecond_congr : ∀ u v : Str, u.length = v.length →
    (∀ i, i % 2 = 0 → u[i]? = v[i]?) → everySecond u = everySecond v
  | [], [], _, _ => rfl
  | [], _ :: _, h, _ => by simp at h
  | _ :: _, [], h, _ => by simp at h
  | [x], [y], _, h => by
    have h0 := h 0 (by omega)
    simp only [List.getElem?_cons_zero, Option.some.injEq] at h0
    simp [everySecond, h0]
  | [x], y1 :: y2 :: v, h, _ => by simp at h
  | x1 :: x2 :: u, [y], h, _ => by simp at h
  | x1 :: x2 :: u, y1 :: y2 :: v, h, hev => by
    have h0 := hev 0 (by omega)
    simp only [List.getElem?_cons_zero, Option.some.injEq] at h0
    simp only [List.length_cons, Nat.add_right_cancel_iff] at h
    simp only [everySecond, h0]
    rw [everySecond_congr u v h (fun i hi => by
      have := hev (i + 2) (by omega)
      simpa using this)]

/-- Claim C10: the Variant A decoder output is independent of the discarded
filler.  For every pair of equal-length inputs whose reversals agree at
every even index, `Deobfuscate` returns the same result — characters at odd
indices of the reversed input never influence the output. -/
theorem C10_filler_independence (s t : Str) (hlen : s.length = t.length)
    (hev : ∀ i, i < s.length → i % 2 = 0 → s.reverse[i]? = t.reverse[i]?) :
    Deobfuscate s = Deobfuscate t := by
  unfold Deobfuscate
  rw [everySecond_congr s.reverse t.reverse (by simp [hlen]) (fun i hi => by
    by_cases hlt : i < s.length
    · exact hev i hlt hi
    · rw [List.getElem?_eq_none (by simp; omega), List.getElem?_eq_none (by simp; omega)])]

theorem C10_witness :
    (str "axbxc").length = (str "aybyc").length ∧
    (∀ i, i < (str "axbxc").length → i % 2 = 0 →
      (str "axbxc").reverse[i]? = (str "aybyc").reverse[i]?) ∧
    Deobfuscate (str "axbxc") = Deobfuscate (str "aybyc") :=
  ⟨by decide, by decide, C10_filler_independence _ _ (by decide) (by decide)⟩

/-! ## Entry-URL construction, transport, extraction and playlist claims -/

/-- Claim C5: for every valid movie request (non-empty identifier, movie
kind), `buildEmbedURL` returns exactly
`https://vidsrc-embed.ru/embed/movie?imdb=` followed by the identifier,
URL-unmodified; for every valid series request (positive season and
episode) it returns exactly
`https://vidsrc-embed.ru/embed/tv?imdb=ID&season=N&episode=M`. -/
theorem C5_buildEntryURL_shape (o : ResolveOptions) (hid : o.IMDBID ≠ []) :
    (o.Typ = Movie →
      buildEmbedURL o = .ok (str "https://vidsrc-embed.ru/embed/movie?imdb=" ++ o.IMDBID)) ∧
    (o.Typ = TV → 0 < o.Season → 0 < o.Episode →
      buildEmbedURL o = .ok (str "https://vidsrc-embed.ru/embed/tv?imdb=" ++ o.IMDBID ++
        str "&season=" ++ intToStr o.Season ++ str "&episode=" ++ intToStr o.Episode)) := by
  constructor
  · intro hm
    simp [buildEmbedURL, hm, hid]
  · intro ht hs he
    unfold buildEmbedURL
    rw [ht, if_neg (show ¬(TV = Movie) by decide), if_pos rfl, if_neg hid,
      if_neg (show ¬(o.Season = 0 ∨ o.Episode = 0) by omega)]

theorem C5_witness :
    ((str "tt1300854" : Str) ≠ []) ∧
    buildEmbedURL ⟨str "tt1300854", Movie, 0, 0⟩ =
      .ok (str "https://vidsrc-embed.ru/embed/movie?imdb=" ++ str "tt1300854") ∧
    buildEmbedURL ⟨str "tt0944947", TV, 1, 2⟩ =
      .ok (str "https://vidsrc-embed.ru/embed/tv?imdb=" ++ str "tt0944947" ++
        str "&season=" ++ intToStr 1 ++ str "&episode=" ++ intToStr 2) :=
  ⟨by decide,
   (C5_buildEntryURL_shape ⟨str "tt1300854", Movie, 0, 0⟩ (by decide)).1 rfl,
   (C5_buildEntryURL_shape ⟨str "tt0944947", TV, 1, 2⟩ (by decide)).2 rfl (by decide) (by decide)⟩

/-- Claim C6 counterexample: the claim says a non-positive season yields
`InvalidRequest`, but the code only rejects season or episode equal to
zero: with season `-1` the build succeeds and emits `season=-1`. -/
theorem C6_counterexample :
    buildEmbedURL ⟨str "tt1", TV, -1, 2⟩ =
      .ok (str "https://vidsrc-embed.ru/embed/tv?imdb=tt1&season=-1&episode=2") ∧
    (-1 : Int) < 0 := by
  constructor
  · rfl
  · decide

/-- Claim C6 amended: for every series request, `buildEmbedURL` succeeds
exactly when the identifier is non-empty and season and episode are both
nonzero (not "positive": negative values are accepted); a zero season or
episode yields the season-episode `InvalidRequest` error, an empty
identifier the empty-id error, and a kind outside movie and tv yields
`UnsupportedMediaKind`. -/
theorem C6_series_validation (o : ResolveOptions) :
    (o.Typ = TV →
      (((∃ u, buildEmbedURL o = .ok u) ↔
          (o.IMDBID ≠ [] ∧ o.Season ≠ 0 ∧ o.Episode ≠ 0)) ∧
        (o.IMDBID = [] → buildEmbedURL o = .error .emptyTVID) ∧
        (o.IMDBID ≠ [] → (o.Season = 0 ∨ o.Episode = 0) →
          buildEmbedURL o = .error (.seasonEpisodeUnset o.IMDBID)))) ∧
    (o.Typ ≠ Movie → o.Typ ≠ TV →
      buildEmbedURL o = .error (.unsupportedMediaType o.Typ o.IMDBID)) := by
  constructor
  · intro ht
    have hmt : ¬(o.Typ = Movie) := by
      rw [ht]
      decide
    refine ⟨?_, ?_, ?_⟩
    · constructor
      · rintro ⟨u, hu⟩
        unfold buildEmbedURL at hu
        rw [if_neg hmt, ht, if_pos rfl] at hu
        by_cases hid : o.IMDBID = []
        · rw [if_pos hid] at hu
          exact absurd hu (by simp)
        · rw [if_neg hid] at hu
          by_cases hse : o.Season = 0 ∨ o.Episode = 0
          · rw [if_pos hse] at hu
            exact absurd hu (by simp)
          · exact ⟨hid, by omega, by omega⟩
      · rintro ⟨hid, hs, he⟩
        unfold buildEmbedURL
        rw [if_neg hmt, ht, if_pos rfl, if_neg hid,
          if_neg (show ¬(o.Season = 0 ∨ o.Episode = 0) by omega)]
        exact ⟨_, rfl⟩
    · intro hid
      unfold buildEmbedURL
      rw [if_neg hmt, ht, if_pos rfl, if_pos hid]
    · intro hid hse
      unfold buildEmbedURL
      rw [if_neg hmt, ht, if_pos rfl, if_neg hid, if_pos hse]
  · intro hm ht
    unfold buildEmbedURL
    rw [if_neg hm, if_neg ht]

theorem C6_witness :
    ((∃ u, buildEmbedURL ⟨str "tt1", TV, 3, 0⟩ = .ok u) ↔
      ((str "tt1" : Str) ≠ [] ∧ (3 : Int) ≠ 0 ∧ (0 : Int) ≠ 0)) ∧
    buildEmbedURL ⟨str "tt1", TV, 3, 0⟩ = .error (.seasonEpisodeUnset (str "tt1")) ∧
    buildEmbedURL ⟨str "tt1", str "anime", 1, 1⟩ =
      .error (.unsupportedMediaType (str "anime") (str "tt1")) :=
  ⟨((C6_series_validation ⟨str "tt1", TV, 3, 0⟩).1 rfl).1,
   ((C6_series_validation ⟨str "tt1", TV, 3, 0⟩).1 rfl).2.2 (by decide) (Or.inr rfl),
   (C6_series_validation ⟨str "tt1", str "anime", 1, 1⟩).2 (by decide) (by decide)⟩

/-- Claim C4 counterexample: the claim says a 2xx status is never treated
as a status failure, but the code rejects every status except exactly 200:
status 204 (a 2xx status) makes `fetchContent` fail with
`UnexpectedStatus`. -/
theorem C4_counterexample :
    fetchContent net204 (str "https://vidsrc-embed.ru/embed/movie?imdb=tt1") [] =
      .error (.unexpectedStatus (str "https://vidsrc-embed.ru/embed/movie?imdb=tt1") 204) ∧
    200 ≤ 204 ∧ 204 < 300 :=
  ⟨rfl, by decide, by decide⟩

/-- Claim C4 amended: a fetch fails with `UnexpectedStatus` carrying the
URL and the status exactly when the response status differs from 200
(rather than from the whole non-2xx range); status 200 is not a failure;
and a failing first-stage fetch aborts `ResolveVariants` immediately with
that error, with no retry and no later stage attempted. -/
theorem C4_status_check (net : Net) (url referer : Str) :
    ((net url referer).status = 200 →
      fetchContent net url referer = .ok ((net url referer).raw, (net url referer).dom)) ∧
    ((net url referer).status ≠ 200 →
      fetchContent net url referer = .error (.unexpectedStatus url (net url referer).status)) ∧
    (∀ o embedURL, buildEmbedURL o = .ok embedURL →
      (net embedURL []).status ≠ 200 →
      ResolveVariants net o =
        .error (.unexpectedStatus embedURL (net embedURL []).status)) := by
  refine ⟨?_, ?_, ?_⟩
  · intro h
    unfold fetchContent
    rw [if_neg (by omega)]
  · intro h
    unfold fetchContent
    rw [if_pos h]
  · intro o embedURL hb h
    have hf : fetchContent net embedURL [] =
        .error (.unexpectedStatus embedURL (net embedURL []).status) := by
      unfold fetchContent
      rw [if_pos h]
    unfold ResolveVariants
    rw [hb]
    simp only [bind, Except.bind, hf]

theorem C4_witness :
    fetchContent net200 (str "u") (str "r") = .ok (str "body", .text []) ∧
    fetchContent net204 (str "u") (str "r") = .error (.unexpectedStatus (str "u") 204) ∧
    ResolveVariants net204 ⟨str "tt1", Movie, 0, 0⟩ =
      .error (.unexpectedStatus (str "https://vidsrc-embed.ru/embed/movie?imdb=tt1") 204) :=
  ⟨(C4_status_check net200 (str "u") (str "r")).1 rfl,
   (C4_status_check net204 (str "u") (str "r")).2.1 (by decide),
   (C4_status_check net204 (str "u") (str "r")).2.2 ⟨str "tt1", Movie, 0, 0⟩
     (str "https://vidsrc-embed.ru/embed/movie?imdb=tt1") rfl (by decide)⟩

theorem proRCPScan_none_iff : ∀ s : Str,
    proRCPScan s = none ↔ ∀ i, proRCPMatchAt (s.drop i) = none := by
  intro s
  induction s with
  | nil =>
    constructor
    · intro _ i
      rw [List.drop_nil]
      rfl
    · intro _
      rfl
  | cons c rest ih =>
    simp only [proRCPScan]
    cases h : proRCPMatchAt (c :: rest) with
    | some cap =>
      constructor
      · intro habs
        exact absurd habs (by simp)
      · intro hall
        have := hall 0
        rw [List.drop_zero] at this
        rw [this] at h
        exact absurd h (by simp)
    | none =>
      rw [ih]
      constructor
      · intro hall i
        cases i with
        | zero => simpa using h
        | succ k => simpa using hall k
      · intro hall i
        simpa using hall (i + 1)

theorem proRCPScan_leftmost : ∀ (s : Str) (i : Nat) (cap : Str),
    proRCPMatchAt (s.drop i) = some cap →
    (∀ j, j < i → proRCPMatchAt (s.drop j) = none) →
    proRCPScan s = some cap
  | [], i, cap, h, _ => by
    rw [List.drop_nil] at h
    exact absurd h (by simp [proRCPMatchAt, str])
  | c :: rest, 0, cap, h, _ => by
    rw [List.drop_zero] at h
    simp only [proRCPScan, h]
  | c :: rest, i + 1, cap, h, hmin => by
    have h0 := hmin 0 (by omega)
    rw [List.drop_zero] at h0
    simp only [proRCPScan, h0]
    exact proRCPScan_leftmost rest i cap (by simpa using h)
      (fun j hj => by simpa using hmin (j + 1) (by omega))

/-- Claim C7 counterexample: the claim pattern allows any amount of
whitespace (including none) after `src:`, but the code pattern requires
exactly one space: on input with no space after `src:` the spec pattern
matches and captures `/prorcp/abc`, yet the extractor fails. -/
theorem C7_counterexample :
    specProRCPScan (str "src:'/prorcp/abc'") = some (str "/prorcp/abc") ∧
    extractProRCPURL (str "src:'/prorcp/abc'") = .error .noProRCPURL :=
  ⟨rfl, rfl⟩

/-- Claim C7 amended: the stage-2 URL extractor returns the first (leftmost)
capture of the literal pattern `src: ` + quote + `/prorcp/` + a nonempty
greedy run of non-quote characters — exactly one space between `src:` and
the quote — and fails with the prorcp-url `ExtractionFailed` error exactly
when no position matches. -/
theorem C7_prorcp_extraction (s : Str) :
    (extractProRCPURL s = .error .noProRCPURL ↔
      ∀ i, proRCPMatchAt (s.drop i) = none) ∧
    (∀ i cap, proRCPMatchAt (s.drop i) = some cap →
      (∀ j, j < i → proRCPMatchAt (s.drop j) = none) →
      extractProRCPURL s = .ok cap) := by
  constructor
  · rw [← proRCPScan_none_iff]
    unfold extractProRCPURL
    cases h : proRCPScan s <;> simp
  · intro i cap h hmin
    unfold extractProRCPURL
    rw [proRCPScan_leftmost s i cap h hmin]

theorem C7_witness :
    proRCPMatchAt ((str "xx src: '/prorcp/ab'z").drop 3) = some (str "/prorcp/ab") ∧
    extractProRCPURL (str "xx src: '/prorcp/ab'z") = .ok (str "/prorcp/ab") :=
  ⟨by decide,
   (C7_prorcp_extraction (str "xx src: '/prorcp/ab'z")).2 3 (str "/prorcp/ab")
     (by decide) (by decide)⟩

/-- Claim C9: for every stage-2 page DOM containing no div element whose
inline style equals exactly `display:none;`, hidden-token extraction
returns the hidden-token `ExtractionFailed` error — never an empty-string
success; when such a div exists, its trimmed text content is the token
that drives the result (an empty trimmed token is again an error, not a
success). -/
theorem C9_hidden_token_extraction (doc : HTMLNode) :
    (collectMatching isHiddenDiv doc = [] →
      decodeStreamURL doc = .error .noHiddenDiv) ∧
    (∀ d ds, collectMatching isHiddenDiv doc = d :: ds →
      decodeStreamURL doc =
        (if trimSpace (nodeText d) ≠ [] then
          match Deobfuscate (trimSpace (nodeText d)) with
          | some bs => .ok (byteStr bs)
          | none => .error .deobfuscateFailed
        else .error .extractComponentsFailed)) := by
  constructor
  · intro h
    unfold decodeStreamURL
    rw [h]
  · intro d ds h
    unfold decodeStreamURL
    rw [h]

theorem C9_witness :
    decodeStreamURL noDivDoc = .error .noHiddenDiv ∧
    decodeStreamURL helloDoc = .ok (str "hello") :=
  ⟨(C9_hidden_token_extraction noDivDoc).1 rfl,
   ((C9_hidden_token_extraction helloDoc).2 helloDiv [] rfl).trans (by rfl)⟩

/-- Claim C2 counterexample: the claim says a decode result that is not a
syntactically valid absolute URL must fail with `DecodeFailed`, but the
code performs no URL validation: a token deobfuscating to `notaurl` (no
scheme, not an absolute URL) is returned as a success. -/
theorem C2_counterexample :
    decodeStreamURL notaurlDoc = .ok (str "notaurl") ∧
    specIsAbsoluteURL (str "notaurl") = false :=
  ⟨rfl, rfl⟩

/-- Claim C2 amended: the orchestrator performs no URL-syntax validation
on the decode stage: whenever the hidden token is nonempty and the
transform succeeds, its output is returned as the manifest URL unchanged,
whether or not it is a syntactically valid absolute URL. -/
theorem C2_decode_no_url_validation (doc d : HTMLNode) (ds : List HTMLNode)
    (bs : List Nat)
    (hdiv : collectMatching isHiddenDiv doc = d :: ds)
    (hne : trimSpace (nodeText d) ≠ [])
    (hdec : Deobfuscate (trimSpace (nodeText d)) = some bs) :
    decodeStreamURL doc = .ok (byteStr bs) := by
  unfold decodeStreamURL
  rw [hdiv]
  simp only [hdec, if_pos hne]

theorem C2_witness :
    decodeStreamURL notaurlDoc = .ok (byteStr ((str "notaurl").map Char.toNat)) :=
  C2_decode_no_url_validation notaurlDoc notaurlDiv [] _ rfl (by decide) (by decide)

theorem parseLoop_cons (masterURL l : Str) (rest : List Str) :
    parseLoop masterURL (l :: rest) =
      (if (str "#EXT-X-STREAM-INF").isPrefixOf (trimSpace l) then
        match rest with
        | next :: _ =>
          if trimSpace next ≠ [] ∧ ¬ (str "#").isPrefixOf (trimSpace next) then
            [mkVariant masterURL (trimSpace l) (trimSpace next)]
          else []
        | [] => []
      else []) ++ parseLoop masterURL rest := rfl

/-- Claim C3 amended: the playlist parser emits a variant for a
`#EXT-X-STREAM-INF` line exactly when the immediately following line —
not the next non-blank, non-comment line — exists, is nonempty after
trimming and does not start with `#`; the URL is that immediate next line
resolved against the base URL; a tag whose immediate next line is blank,
a comment, or missing (end of input) is skipped without error. -/
theorem C3_playlist_line_selection (masterURL : Str) (lines : List Str) :
    parseLoop masterURL lines =
      (List.range lines.length).filterMap (fun i =>
        if (str "#EXT-X-STREAM-INF").isPrefixOf (trimSpace (lines.getD i [])) ∧
            i + 1 < lines.length ∧
            trimSpace (lines.getD (i + 1) []) ≠ [] ∧
            ¬ (str "#").isPrefixOf (trimSpace (lines.getD (i + 1) []))
        then some (mkVariant masterURL (trimSpace (lines.getD i []))
              (trimSpace (lines.getD (i + 1) [])))
        else none) := by
  induction lines with
  | nil => rfl
  | cons l rest ih =>
    rw [parseLoop_cons]
    simp only [List.length_cons, List.range_succ_eq_map, List.filterMap_cons]
    rw [List.filterMap_map]
    have htail : (List.range rest.length).filterMap
        ((fun i =>
          if (str "#EXT-X-STREAM-INF").isPrefixOf (trimSpace ((l :: rest).getD i [])) ∧
              i + 1 < rest.length + 1 ∧
              trimSpace ((l :: rest).getD (i + 1) []) ≠ [] ∧
              ¬ (str "#").isPrefixOf (trimSpace ((l :: rest).getD (i + 1) []))
          then some (mkVariant masterURL (trimSpace ((l :: rest).getD i []))
                (trimSpace ((l :: rest).getD (i + 1) [])))
          else none) ∘ Nat.succ) =
        parseLoop masterURL rest := by
      rw [ih]
      apply List.filterMap_congr
      intro i _
      simp only [Function.comp_apply, List.getD_cons_succ, Nat.add_lt_add_iff_right]
    rw [htail]
    simp only [List.getD_cons_zero, List.getD_cons_succ, Nat.zero_add]
    cases rest with
    | nil =>
      rw [if_neg (show ¬((str "#EXT-X-STREAM-INF").isPrefixOf (trimSpace l) ∧
          0 + 1 < List.length ([] : List Str) + 1 ∧
          trimSpace (List.getD ([] : List Str) 0 []) ≠ [] ∧
          ¬ (str "#").isPrefixOf (trimSpace (List.getD ([] : List Str) 0 []))) by
        rintro ⟨_, h2, _⟩
        simp at h2)]
      cases hp : (str "#EXT-X-STREAM-INF").isPrefixOf (trimSpace l) <;> simp [hp]
    | cons next rest2 =>
      by_cases hp : (str "#EXT-X-STREAM-INF").isPrefixOf (trimSpace l)
      · by_cases hu : trimSpace next ≠ [] ∧ ¬ (str "#").isPrefixOf (trimSpace next)
        · have hcond : (str "#EXT-X-STREAM-INF").isPrefixOf (trimSpace l) ∧
              0 + 1 < (next :: rest2).length + 1 ∧
              trimSpace ((next :: rest2).getD 0 []) ≠ [] ∧
              ¬ (str "#").isPrefixOf (trimSpace ((next :: rest2).getD 0 [])) :=
            ⟨hp, by simp, by simpa using hu.1, by simpa using hu.2⟩
          rw [if_pos hp, if_pos hcond]
          dsimp only
          rw [if_pos hu]
          rfl
        · rw [if_pos hp, if_neg (show ¬_ by
            rintro ⟨_, _, h3, h4⟩
            exact hu ⟨by simpa using h3, by simpa using h4⟩)]
          dsimp only
          rw [if_neg hu]
          rfl
      · rw [if_neg hp, if_neg (show ¬_ by rintro ⟨h1, _⟩; exact hp h1)]
        rfl

/-- Claim C3 counterexample: the claim says blank lines between the tag and
the URL line are skipped, but with a single blank line between the tag and
a perfectly good URL reference the code produces no variant at all. -/
theorem C3_counterexample :
    (str "#EXT-X-STREAM-INF").isPrefixOf
      (trimSpace (str "#EXT-X-STREAM-INF:RESOLUTION=720x480")) = true ∧
    trimSpace (str "720p/index.m3u8") ≠ [] ∧
    ¬ (str "#").isPrefixOf (trimSpace (str "720p/index.m3u8")) ∧
    parseLoop (str "https://cdn.example.com/movie/master.m3u8")
      [str "#EXT-X-STREAM-INF:RESOLUTION=720x480", str "", str "720p/index.m3u8"] = [] :=
  ⟨by decide, by decide, by decide, rfl⟩

theorem parseLoop_nil_of_no_tag (masterURL : Str) : ∀ lines : List Str,
    (∀ l ∈ lines, ¬ (str "#EXT-X-STREAM-INF").isPrefixOf (trimSpace l)) →
    parseLoop masterURL lines = []
  | [], _ => rfl
  | l :: rest, h => by
    rw [parseLoop_cons, if_neg (h l (by simp)),
      parseLoop_nil_of_no_tag masterURL rest (fun x hx => h x (by simp [hx]))]
    rfl

/-- Claim C8: whenever the pipeline succeeds its returned variant list is
non-empty; and for every fetched manifest from which zero variants parse
(in particular any playlist without a `#EXT-X-STREAM-INF` line), the
pipeline fails with `NoVariantsFound` carrying the base URL. -/
theorem C8_nonempty_variants (net : Net) (o : ResolveOptions) :
    (∀ vs, ResolveStreams net o = .ok vs → vs ≠ []) ∧
    (∀ mu, ResolveVariants net o = .ok mu → (net mu []).status = 200 →
      (∀ l ∈ splitOnChar '\n' (net mu []).raw,
        ¬ (str "#EXT-X-STREAM-INF").isPrefixOf (trimSpace l)) →
      ResolveStreams net o = .error (.noVariantsFound mu)) := by
  constructor
  · intro vs hok
    unfold ResolveStreams at hok
    cases hmv : ResolveVariants net o with
    | error e =>
      rw [hmv] at hok
      simp only [bind, Except.bind] at hok
      exact absurd hok (by simp)
    | ok mu =>
      rw [hmv] at hok
      simp only [bind, Except.bind] at hok
      by_cases h200 : (net mu []).status ≠ 200
      · rw [if_pos h200] at hok
        exact absurd hok (by simp)
      · rw [if_neg h200] at hok
        by_cases hvar : parseLoop mu (splitOnChar '\n' (net mu []).raw) = []
        · rw [if_pos hvar] at hok
          exact absurd hok (by simp)
        · rw [if_neg hvar] at hok
          simp only [pure, Except.pure, Except.ok.injEq] at hok
          rw [← hok]
          exact hvar
  · intro mu hmv h200 hno
    unfold ResolveStreams
    rw [hmv]
    simp only [bind, Except.bind]
    rw [if_neg (by omega), parseLoop_nil_of_no_tag mu _ hno, if_pos rfl]

theorem C8_witness :
    ([⟨str "720x480", [], str "https://m.ex/v/a.m3u8"⟩] : List StreamVariant) ≠ [] ∧
    ResolveStreams netDemo2 oDemo =
      .error (.noVariantsFound (str "https://m.ex/pl.m3u8")) :=
  ⟨(C8_nonempty_variants netDemo oDemo).1
      [⟨str "720x480", [], str "https://m.ex/v/a.m3u8"⟩] (by rfl),
   (C8_nonempty_variants netDemo2 oDemo).2 (str "https://m.ex/pl.m3u8")
      (by rfl) (by rfl) (by decide)⟩
